import Mathlib

/-!
Verification of the opendps remote-control substrate: the CRC-16/CCITT
engine (crc16.h), the byte-stuffed frame codec (uframe.h), the command
layer constants and frame builders (protocol.h), the bootcom durable
handoff (bootcom.h) and the ESP8266 HTTP gateway (esp8266-proxy/webserver.c).

The repository snapshot contains the full webserver.c but only the header
files (declarations plus documented contracts) for crc16, uframe, protocol
and bootcom; where an implementation is absent the corresponding Lean
definition is modelled from the specification and the header documentation,
and is marked `Modelled from the spec:` in its doc comment.

Byte buffers are modelled as `List Nat` with every element intended to be
< 256 (the C `uint8_t*`/length pairs become lists); 16-bit arithmetic is
Nat arithmetic taken `% 65536` where the C code would wrap.
-/

/-! ## CRC engine (crc16.h) -/

/-- Modelled from the spec: `crc16.c` is not under `src/`; this is the
CRC-16/CCITT step documented in crc16.h (polynomial 0x1021, no input or
output reflection, no final XOR): one left shift of the 16-bit accumulator,
XORing in the polynomial when the top bit was set. -/
def crcShift (crc : Nat) : Nat :=
  if crc &&& 0x8000 ≠ 0 then ((crc <<< 1) ^^^ 0x1021) % 65536
  else (crc <<< 1) % 65536

/-- Modelled from the spec: `crc16_add(crc, byte)` from crc16.h — XOR the
input byte into the high byte of the accumulator, then shift eight times. -/
def crc16_add (crc b : Nat) : Nat :=
  crcShift^[8] ((crc ^^^ ((b % 256) <<< 8)) % 65536)

/-- Modelled from the spec: the loop body of `crc16(data, length)` from
crc16.h — a C `for` loop over indices `0 ≤ i < length`, accumulating with
`crc16_add`. The C `(uint8_t *data, uint16_t length)` pair is modelled as
the list of the `length` bytes; `fuel` is the structural bound on the
remaining iterations (the loop runs while `i < length`, so
`fuel = length - i` iterations remain). -/
def crc16_loop (data : List Nat) (fuel i crc : Nat) : Nat :=
  match fuel with
  | 0 => crc
  | fuel + 1 =>
    if h : i < data.length then
      crc16_loop data fuel (i + 1) (crc16_add crc (data.get ⟨i, h⟩))
    else crc

/-- Modelled from the spec: `crc16(data, length)` from crc16.h — block CRC
starting from 0. -/
def crc16 (data : List Nat) : Nat :=
  crc16_loop data data.length 0 0

/-! ## Frame codec (uframe.h) -/

/-- `_SOF` (uframe.h): start-of-frame marker. -/
def uSOF : Nat := 0x7e

/-- `_DLE` (uframe.h): data-link-escape marker. -/
def uDLE : Nat := 0x7d

/-- `_XOR` (uframe.h): value XORed onto an escaped byte. -/
def uXOR : Nat := 0x20

/-- `_EOF` (uframe.h): end-of-frame marker. -/
def uEOF : Nat := 0x7f

/-- Frame extraction errors `E_LEN`, `E_FRM`, `E_CRC` (uframe.h). -/
inductive frame_error where
  | e_len
  | e_frm
  | e_crc
deriving DecidableEq, Repr

/-- `frame_t` (uframe.h): the 128-byte buffer plus current length become a
`List Nat` (the capacity bound is a memory-safety concern outside this
functional model); `crc` is the running CRC while building and `unpack_pos`
the read cursor while unpacking. -/
structure frame_t where
  buffer : List Nat
  crc : Nat
  unpack_pos : Nat
deriving DecidableEq, Repr

/-- An empty frame value to initialise from. -/
def frame0 : frame_t := ⟨[], 0, 0⟩

/-- Modelled from the spec: `set_frame_header` (uframe.c is not under
`src/`) — writes SOF, resets the running CRC to 0, resets length to 1. -/
def set_frame_header (_f : frame_t) : frame_t :=
  ⟨[uSOF], 0, 0⟩

/-- The escaping rule of uframe.h: a byte equal to SOF, EOF or DLE is
emitted as the pair `DLE, byte XOR 0x20`; any other byte passes through. -/
def escapeByte (d : Nat) : List Nat :=
  if d = uSOF ∨ d = uEOF ∨ d = uDLE then [uDLE, d ^^^ uXOR] else [d]

/-- Byte-wise escaping of a whole byte sequence. -/
def escapeList : List Nat → List Nat
  | [] => []
  | b :: bs => escapeByte b ++ escapeList bs

/-- Modelled from the spec: `pack8` — update the running CRC with the byte
(the C argument is `uint8_t`, hence the `% 256`), then append it with
escaping applied. -/
def pack8 (f : frame_t) (d : Nat) : frame_t :=
  let d := d % 256
  ⟨f.buffer ++ escapeByte d, crc16_add f.crc d, f.unpack_pos⟩

/-- Modelled from the spec: `pack16` — big-endian, MSB first, both bytes
packed through `pack8`. -/
def pack16 (f : frame_t) (d : Nat) : frame_t :=
  pack8 (pack8 f (d / 256 % 256)) (d % 256)

/-- Modelled from the spec: `pack_cstr` — every character of the string and
then the terminating NUL, each through `pack8`. -/
def pack_cstr (f : frame_t) (s : List Char) : frame_t :=
  pack8 ((s.map Char.toNat).foldl pack8 f) 0

/-- `pack8` folded over a byte list (the shape every frame builder takes). -/
def packBytes (f : frame_t) (p : List Nat) : frame_t :=
  p.foldl pack8 f

/-- Modelled from the spec: `end_frame` — append the two CRC bytes
(big-endian, each escaped, not folded into the CRC) and the raw EOF
marker. -/
def end_frame (f : frame_t) : frame_t :=
  ⟨f.buffer ++ escapeByte (f.crc / 256 % 256) ++ escapeByte (f.crc % 256) ++ [uEOF],
   f.crc, f.unpack_pos⟩

/-- The wire bytes of a frame built from payload `p`:
`set_frame_header`, `pack8` for each payload byte, `end_frame`. -/
def buildWire (p : List Nat) : List Nat :=
  (end_frame (packBytes (set_frame_header frame0) p)).buffer

/-- Index of the first occurrence of `b`, if any. -/
def firstIdxOf (b : Nat) : List Nat → Option Nat
  | [] => none
  | x :: xs => if x = b then some 0 else (firstIdxOf b xs).map (· + 1)

/-- Index of the last occurrence of `b`, if any. -/
def lastIdxOf (b : Nat) (l : List Nat) : Option Nat :=
  (firstIdxOf b l.reverse).map (fun i => l.length - 1 - i)

/-- Un-escaping: `DLE x` becomes `x XOR 0x20`, other bytes pass through.
A dangling DLE as the very last byte (impossible in a well-formed frame)
contributes nothing. -/
def unescapeList : List Nat → List Nat
  | [] => []
  | x :: rest =>
    if x = uDLE then
      match rest with
      | [] => []
      | y :: rest2 => (y ^^^ uXOR) :: unescapeList rest2
    else x :: unescapeList rest

/-- Modelled from the spec: `uframe_extract_payload` (uframe.c is not under
`src/`) — locate the first SOF and last EOF (absent or out of order:
`E_FRM`), un-escape the span strictly between them, reject when the
un-escaped span has no room for the CRC or would not fit the 128-byte frame
buffer (`E_LEN`), split off the trailing two bytes as the claimed big-endian
CRC, recompute over the rest and compare (`E_CRC`); on success return the
payload bytes. -/
def uframe_extract_payload (data : List Nat) : Except frame_error (List Nat) :=
  match firstIdxOf uSOF data, lastIdxOf uEOF data with
  | some si, some ei =>
    if si + 1 ≤ ei then
      let un := unescapeList ((data.take ei).drop (si + 1))
      if un.length < 2 then .error .e_len
      else if un.length > 126 then .error .e_len
      else
        let payload := un.take (un.length - 2)
        let claimed := 256 * un.getD (un.length - 2) 0 + un.getD (un.length - 1) 0
        if crc16 payload = claimed then .ok payload else .error .e_crc
    else .error .e_frm
  | _, _ => .error .e_frm

/-- Modelled from the spec: `uframe_from_extracted_payload` — set up a frame
holding an already-extracted payload for unpacking. -/
def uframe_from_extracted_payload (p : List Nat) : frame_t :=
  ⟨p, 0, 0⟩

/-- Modelled from the spec: `start_frame_unpacking` — reset the read cursor. -/
def start_frame_unpacking (f : frame_t) : frame_t :=
  ⟨f.buffer, f.crc, 0⟩

/-- Modelled from the spec: `unpack8` — read the byte at the cursor and
advance. (An out-of-range read in C returns stale buffer bytes; it is
modelled as 0, and no claim depends on such a read's value.) -/
def unpack8 (f : frame_t) : Nat × frame_t :=
  (f.buffer.getD f.unpack_pos 0, ⟨f.buffer, f.crc, f.unpack_pos + 1⟩)

/-- Modelled from the spec: `unpack16` — two `unpack8` reads, MSB first. -/
def unpack16 (f : frame_t) : Nat × frame_t :=
  let (hi, f1) := unpack8 f
  let (lo, f2) := unpack8 f1
  (256 * hi + lo, f2)

/-! ## Command layer (protocol.h) -/

/-- `cmd_ping` (protocol.h command enum). -/
def cmd_ping : Nat := 1

/-- `cmd_query` (protocol.h command enum; tags 2, 3 and 5 are the retired
obsolete commands). -/
def cmd_query : Nat := 4

/-- `cmd_ocp_event` (protocol.h command enum). -/
def cmd_ocp_event : Nat := 8

/-- `cmd_enable_output` (protocol.h command enum). -/
def cmd_enable_output : Nat := 12

/-- `cmd_set_parameters` (protocol.h command enum). -/
def cmd_set_parameters : Nat := 14

/-- `cmd_response` (protocol.h): flag ORed onto a command tag in responses. -/
def cmd_response : Nat := 0x80

/-- The big-endian byte order `pack16` emits for a 16-bit value: MSB first. -/
def u16_be_bytes (d : Nat) : List Nat := [d / 256 % 256, d % 256]

/-- Modelled from the spec: `protocol_create_ocp` (protocol.c is not under
`src/`) — per the wire layout documented in protocol.h,
`[cmd_ocp_event] [I_cut(7:0)] [I_cut(15:8)]`: the 16-bit current is packed
low byte first, the reverse of `pack16`. -/
def protocol_create_ocp (i_cut : Nat) : frame_t :=
  end_frame (pack8 (pack8 (pack8 (set_frame_header frame0) cmd_ocp_event)
    (i_cut % 256)) (i_cut / 256 % 256))

/-! ## Durable handoff (bootcom.h) and the upgrade handshake -/

/-- The bootcom RAM area (bootcom.h): a magic-word validity flag and two
32-bit words; the area survives a software reset. -/
structure bootcom_state where
  valid : Bool
  w1 : Nat
  w2 : Nat
deriving DecidableEq, Repr

/-- Modelled from the spec: `bootcom_put` (bootcom.c is not under `src/`) —
store both words and set the magic word marking the data valid. -/
def bootcom_put (w1 w2 : Nat) (_s : bootcom_state) : bootcom_state :=
  ⟨true, w1, w2⟩

/-- Modelled from the spec: `bootcom_get` — when the magic word is present,
return both words and clear the buffer (read-once contract of bootcom.h);
otherwise report absence and leave the state alone. -/
def bootcom_get (s : bootcom_state) : Option (Nat × Nat) × bootcom_state :=
  if s.valid then (some (s.w1, s.w2), ⟨false, 0, 0⟩) else (none, s)

/-- Observable events of the upgrade handshake around the reset boundary. -/
inductive upgrade_event where
  | put_handoff (w1 w2 : Nat)
  | device_reset
  | get_handoff
deriving DecidableEq, Repr

/-- Modelled from the spec: the command word stored by the application when
requesting an upgrade. Its numeric value is not under `src/`; the claims
below do not depend on it. -/
def bootcom_cmd_upgrade : Nat := 1

/-- Modelled from the spec: the `cmd_upgrade_start` handler (opendps.c is
not under `src/`) — per protocol.h's upgrade-session steps, it first writes
the handoff words to bootcom RAM and then restarts the device. -/
def upgrade_start_events (chunk_size : Nat) : List upgrade_event :=
  [.put_handoff bootcom_cmd_upgrade chunk_size, .device_reset]

/-- Execution of an event trace over the bootcom area: a reset preserves
the area (its whole point), a get consumes it. Returns the final state and
the list of results of the `get_handoff` events in order. -/
def run_events : bootcom_state → List upgrade_event → bootcom_state × List (Option (Nat × Nat))
  | s, [] => (s, [])
  | s, .put_handoff a b :: rest => run_events (bootcom_put a b s) rest
  | s, .device_reset :: rest => run_events s rest
  | s, .get_handoff :: rest =>
    let (r, s1) := bootcom_get s
    let (s2, rs) := run_events s1 rest
    (s2, r :: rs)

/-! ## HTTP gateway (esp8266-proxy/webserver.c) -/

/-- The transport callback `uart_comm_func_t`: it receives the built wire
frame; `none` models the callback returning `false` (timeout / no
response), `some p` models it returning `true` with the response payload
`p` extracted into the frame for unpacking. -/
def uart_comm_func_t : Type := List Nat → Option (List Nat)

/-- The outcome `handle_request` writes on a connection: the HTTP status of
the header constant used (`http_json_header` / `http_html_header` /
`http_options` are 200, `http_404` is 404), the body after that header, and
the wire frames handed to the transport callback, in order. -/
structure http_out where
  status : Nat
  body : String
  sent : List (List Nat)
deriving DecidableEq, Repr

/-- `index_html` (webserver.c): the embedded control page. Its text plays
no role in any property below and is abbreviated. -/
def index_html : String := "<opendps control page>"

/-- The body written by `parse_query_response` on a tag/status mismatch. -/
def json_invalid_response : String := "\x7b\"error\":\"invalid response\"\x7d"

/-- The body written on a transport failure of `GET /api/status`. -/
def json_comm_timeout : String := "\x7b\"error\":\"communication timeout\"\x7d"

/-- The body written when a POST route finds no body (or no callback). -/
def json_no_body : String := "\x7b\"success\":false,\"error\":\"no body\"\x7d"

/-- The `{"success":...}` body of the POST routes. -/
def json_success (b : Bool) : String :=
  "\x7b\"success\":" ++ (if b then "true" else "false") ++ "\x7d"

/-- Two-decimal fractional part for `%.2f`. -/
def pad2 (n : Nat) : String :=
  if n < 10 then "0" ++ toString n else toString n

/-- Three-decimal fractional part for `%.3f`. -/
def pad3 (n : Nat) : String :=
  if n < 10 then "00" ++ toString n
  else if n < 100 then "0" ++ toString n
  else toString n

/-- `snprintf`'s `%.2f` applied to `v / 1000.0f` (webserver.c), for a
milli-unit value `v`: integer part and two decimals. For every value this
development evaluates it on (multiples of 10 milli-units) the binary float
rounding of the C code agrees with this exact decimal. -/
def fmt_milli2 (v : Nat) : String :=
  toString (v / 1000) ++ "." ++ pad2 (v % 1000 / 10)

/-- `snprintf`'s `%.3f` applied to `v / 1000.0f` (webserver.c). -/
def fmt_milli3 (v : Nat) : String :=
  toString (v / 1000) ++ "." ++ pad3 (v % 1000)

/-- The JSON status body of webserver.c's `parse_query_response`. -/
def json_query (v_in v_out i_out output_enabled : Nat) : String :=
  "\x7b\"v_in\":" ++ fmt_milli2 v_in ++ ",\"v_out\":" ++ fmt_milli2 v_out ++
  ",\"i_out\":" ++ fmt_milli3 i_out ++ ",\"output_enabled\":" ++
  (if output_enabled ≠ 0 then "true" else "false") ++ "\x7d"

/-- `create_query_frame` (webserver.c): `set_frame_header`,
`pack8(cmd_query)`, `end_frame`; the wire bytes of the built frame. -/
def create_query_frame : List Nat :=
  (end_frame (pack8 (set_frame_header frame0) cmd_query)).buffer

/-- `create_set_param_frame` (webserver.c): tag `cmd_set_parameters`
followed by the NUL-terminated name and value strings. -/
def create_set_param_frame (param_name value : List Char) : List Nat :=
  (end_frame (pack_cstr (pack_cstr (pack8 (set_frame_header frame0)
    cmd_set_parameters) param_name) value)).buffer

/-- `create_enable_output_frame` (webserver.c): tag `cmd_enable_output`
followed by the 1-byte enable flag. -/
def create_enable_output_frame (enable : Nat) : List Nat :=
  (end_frame (pack8 (pack8 (set_frame_header frame0) cmd_enable_output)
    enable)).buffer

/-- `parse_query_response` (webserver.c): unpacks `cmd`, `status`, and on a
match `v_in`, `v_out`, `i_out`, `output_enabled`, then two temperatures and
a shutdown flag that do not flow into the JSON; returns the JSON body and
the success flag. -/
def parse_query_response (payload : List Nat) : String × Bool :=
  let f0 := start_frame_unpacking (uframe_from_extracted_payload payload)
  let (cmd, f1) := unpack8 f0
  let (status, f2) := unpack8 f1
  if cmd ≠ (cmd_response ||| cmd_query) ∨ status = 0 then
    (json_invalid_response, false)
  else
    let (v_in, f3) := unpack16 f2
    let (v_out, f4) := unpack16 f3
    let (i_out, f5) := unpack16 f4
    let (output_enabled, f6) := unpack8 f5
    let (_temp1, f7) := unpack16 f6
    let (_temp2, f8) := unpack16 f7
    let (_temp_shutdown, _) := unpack8 f8
    (json_query v_in v_out i_out output_enabled, true)

/-- `parse_simple_response` (webserver.c): reads `cmd` (unchecked) and
`status`; the command succeeded iff `status` is non-zero. -/
def parse_simple_response (payload : List Nat) : Bool :=
  let f0 := start_frame_unpacking (uframe_from_extracted_payload payload)
  let (_cmd, f1) := unpack8 f0
  let (status, _) := unpack8 f1
  status != 0

/-- `strncmp(buf, p, strlen p) == 0`: `p` is a leading chunk of `l`. -/
def startsWith : List Char → List Char → Bool
  | _, [] => true
  | [], _ :: _ => false
  | a :: as, b :: bs => a == b && startsWith as bs

/-- The `"\r\n\r\n"` header/body separator searched by `find_body`. -/
def http_sep : List Char := ['\r', '\n', '\r', '\n']

/-- `find_body` (webserver.c): `strstr(request, "\r\n\r\n")`, returning
the text just past the first separator, or nothing. -/
def find_body : List Char → Option (List Char)
  | [] => none
  | x :: rest =>
    if startsWith (x :: rest) http_sep then some ((x :: rest).drop 4)
    else find_body rest

/-- Route prefix `"OPTIONS"` of webserver.c. -/
def rt_options : List Char := "OPTIONS".toList

/-- Route prefix `"GET / "` of webserver.c. -/
def rt_get_root : List Char := "GET / ".toList

/-- Route prefix `"GET /index"` of webserver.c. -/
def rt_get_index : List Char := "GET /index".toList

/-- Route prefix `"GET /api/status"` of webserver.c. -/
def rt_get_status : List Char := "GET /api/status".toList

/-- Route prefix `"POST /api/voltage"` of webserver.c. -/
def rt_post_voltage : List Char := "POST /api/voltage".toList

/-- Route prefix `"POST /api/current"` of webserver.c. -/
def rt_post_current : List Char := "POST /api/current".toList

/-- Route prefix `"POST /api/output"` of webserver.c. -/
def rt_post_output : List Char := "POST /api/output".toList

/-- The routing chain of `handle_request` (webserver.c) on a non-empty
request, given the installed transport callback (`none` models a NULL
`g_uart_comm`). Mirrors the C `if`/`else if` chain in order. -/
def route (req : List Char) (comm : Option uart_comm_func_t) : http_out :=
  if startsWith req rt_options then ⟨200, "", []⟩
  else if startsWith req rt_get_root || startsWith req rt_get_index then
    ⟨200, index_html, []⟩
  else if startsWith req rt_get_status then
    match comm with
    | some f =>
      match f create_query_frame with
      | some payload => ⟨200, (parse_query_response payload).1, [create_query_frame]⟩
      | none => ⟨200, json_comm_timeout, [create_query_frame]⟩
    | none => ⟨200, json_comm_timeout, []⟩
  else if startsWith req rt_post_voltage then
    match find_body req, comm with
    | some body, some f =>
      let wire := create_set_param_frame ("voltage".toList) body
      let success := match f wire with
        | some payload => parse_simple_response payload
        | none => false
      ⟨200, json_success success, [wire]⟩
    | _, _ => ⟨200, json_no_body, []⟩
  else if startsWith req rt_post_current then
    match find_body req, comm with
    | some body, some f =>
      let wire := create_set_param_frame ("current".toList) body
      let success := match f wire with
        | some payload => parse_simple_response payload
        | none => false
      ⟨200, json_success success, [wire]⟩
    | _, _ => ⟨200, json_no_body, []⟩
  else if startsWith req rt_post_output then
    match find_body req, comm with
    | some body, some f =>
      let enable : Nat := if body.headD (Char.ofNat 0) = '1' then 1 else 0
      let wire := create_enable_output_frame enable
      let success := match f wire with
        | some payload => parse_simple_response payload
        | none => false
      ⟨200, json_success success, [wire]⟩
    | _, _ => ⟨200, json_no_body, []⟩
  else ⟨404, "Not Found", []⟩

/-- `handle_request` (webserver.c): nothing is written on an empty
request (`buflen == 0`); otherwise the routing chain decides the single
response written before the connection is closed. -/
def handle_request (req : List Char) (comm : Option uart_comm_func_t) : Option http_out :=
  if req.isEmpty then none else some (route req comm)

/-! ## Lemmas: the CRC accumulator stays 16-bit and the block CRC is a fold -/

theorem crcShift_lt (x : Nat) : crcShift x < 65536 := by
  unfold crcShift
  split <;> exact Nat.mod_lt _ (by norm_num)

theorem crc16_add_lt (crc b : Nat) : crc16_add crc b < 65536 := by
  unfold crc16_add
  rw [show (8 : Nat) = 7 + 1 from rfl, Function.iterate_succ_apply']
  exact crcShift_lt _

theorem foldl_crc16_add_lt (p : List Nat) : ∀ crc : Nat, crc < 65536 →
    p.foldl crc16_add crc < 65536 := by
  induction p with
  | nil => intro crc h; simpa using h
  | cons b bs ih => intro crc _; exact ih _ (crc16_add_lt _ _)

theorem crc16_loop_eq (data : List Nat) (fuel : Nat) : ∀ i crc : Nat,
    data.length - i ≤ fuel →
    crc16_loop data fuel i crc = (data.drop i).foldl crc16_add crc := by
  induction fuel with
  | zero =>
    intro i crc h
    have hle : data.length ≤ i := by omega
    simp [crc16_loop, List.drop_eq_nil_iff.mpr hle]
  | succ fuel ih =>
    intro i crc h
    unfold crc16_loop
    split
    case isTrue hlt =>
      rw [List.drop_eq_getElem_cons hlt, List.foldl_cons,
        ih (i + 1) (crc16_add crc (data.get ⟨i, hlt⟩)) (by omega)]
      simp [List.get_eq_getElem]
    case isFalse hge =>
      have hnil : data.drop i = [] := List.drop_eq_nil_iff.mpr (by omega)
      simp [hnil]

theorem crc16_eq_foldl (data : List Nat) : crc16 data = data.foldl crc16_add 0 := by
  unfold crc16
  rw [crc16_loop_eq data data.length 0 0 (by omega), List.drop_zero]

theorem crc16_lt (p : List Nat) : crc16 p < 65536 := by
  rw [crc16_eq_foldl]
  exact foldl_crc16_add_lt p 0 (by norm_num)

/-! ## Lemmas: escaping -/

theorem escapeByte_no_marker (d b : Nat) (hb : b ∈ escapeByte d) :
    b ≠ uSOF ∧ b ≠ uEOF := by
  unfold escapeByte at hb
  split at hb
  case isTrue h =>
    rcases h with rfl | rfl | rfl <;>
      simp only [List.mem_cons, List.not_mem_nil, or_false] at hb <;>
      rcases hb with rfl | rfl <;> decide
  case isFalse h =>
    push_neg at h
    simp only [List.mem_cons, List.not_mem_nil, or_false] at hb
    subst hb
    exact ⟨h.1, h.2.1⟩

theorem mem_escapeList (p : List Nat) (b : Nat) (hb : b ∈ escapeList p) :
    ∃ d ∈ p, b ∈ escapeByte d := by
  induction p with
  | nil => simp [escapeList] at hb
  | cons d ds ih =>
    rw [escapeList, List.mem_append] at hb
    rcases hb with hb | hb
    · exact ⟨d, by simp, hb⟩
    · obtain ⟨e, he, hbe⟩ := ih hb
      exact ⟨e, by simp [he], hbe⟩

theorem escapeList_append (p q : List Nat) :
    escapeList (p ++ q) = escapeList p ++ escapeList q := by
  induction p with
  | nil => simp [escapeList]
  | cons d ds ih => simp [escapeList, ih, List.append_assoc]

theorem unescape_escapeByte (d : Nat) (rest : List Nat) :
    unescapeList (escapeByte d ++ rest) = d :: unescapeList rest := by
  unfold escapeByte
  split
  case isTrue h =>
    show unescapeList (uDLE :: (d ^^^ uXOR) :: rest) = d :: unescapeList rest
    rw [unescapeList.eq_def]
    simp [Nat.xor_assoc, Nat.xor_self, Nat.xor_zero]
  case isFalse h =>
    push_neg at h
    show unescapeList (d :: rest) = d :: unescapeList rest
    rw [unescapeList.eq_def]
    simp only [if_neg h.2.2]

theorem unescape_escapeList (p rest : List Nat) :
    unescapeList (escapeList p ++ rest) = p ++ unescapeList rest := by
  induction p with
  | nil => simp [escapeList]
  | cons d ds ih =>
    rw [escapeList, List.append_assoc, unescape_escapeByte, ih]
    rfl

/-! ## Lemmas: the shape of a built frame and the extraction round trip -/

theorem packBytes_eq (p : List Nat) : ∀ f : frame_t, (∀ b ∈ p, b < 256) →
    packBytes f p = ⟨f.buffer ++ escapeList p, p.foldl crc16_add f.crc, f.unpack_pos⟩ := by
  induction p with
  | nil => intro f _; simp [packBytes, escapeList]
  | cons b bs ih =>
    intro f hb
    have hb256 : b % 256 = b := Nat.mod_eq_of_lt (hb b (by simp))
    have hrest := ih (pack8 f b) (fun x hx => hb x (by simp [hx]))
    unfold packBytes at hrest ⊢
    rw [List.foldl_cons, hrest]
    simp [pack8, hb256, escapeList, List.append_assoc]

/-- The middle section of a built wire frame: the escaped payload followed
by the two escaped CRC bytes. -/
def wireMid (p : List Nat) : List Nat :=
  escapeList p ++ escapeByte (crc16 p / 256 % 256) ++ escapeByte (crc16 p % 256)

theorem buildWire_eq (p : List Nat) (hb : ∀ b ∈ p, b < 256) :
    buildWire p = uSOF :: (wireMid p ++ [uEOF]) := by
  unfold buildWire end_frame wireMid
  rw [packBytes_eq p (set_frame_header frame0) hb]
  simp [set_frame_header, crc16_eq_foldl, List.append_assoc]

theorem wireMid_no_marker (p : List Nat) (b : Nat) (hb : b ∈ wireMid p) :
    b ≠ uSOF ∧ b ≠ uEOF := by
  unfold wireMid at hb
  rcases List.mem_append.mp hb with hb1 | hb1
  · rcases List.mem_append.mp hb1 with hb2 | hb2
    · obtain ⟨d, _, hbd⟩ := mem_escapeList p b hb2
      exact escapeByte_no_marker d b hbd
    · exact escapeByte_no_marker _ b hb2
  · exact escapeByte_no_marker _ b hb1

theorem wireMid_eq_escape (p : List Nat) :
    wireMid p = escapeList (p ++ [crc16 p / 256 % 256, crc16 p % 256]) := by
  rw [escapeList_append]
  simp [wireMid, escapeList, List.append_assoc]

theorem unescape_wireMid (p : List Nat) :
    unescapeList (wireMid p) = p ++ [crc16 p / 256 % 256, crc16 p % 256] := by
  rw [wireMid_eq_escape]
  have h := unescape_escapeList (p ++ [crc16 p / 256 % 256, crc16 p % 256]) []
  simpa using h

theorem extract_buildWire (p : List Nat) (hb : ∀ b ∈ p, b < 256)
    (hlen : p.length ≤ 124) :
    uframe_extract_payload (buildWire p) = .ok p := by
  rw [buildWire_eq p hb]
  have hfirst : firstIdxOf uSOF (uSOF :: (wireMid p ++ [uEOF])) = some 0 := by
    simp [firstIdxOf]
  have hlast : lastIdxOf uEOF (uSOF :: (wireMid p ++ [uEOF])) =
      some ((wireMid p).length + 1) := by
    unfold lastIdxOf
    have hrev : (uSOF :: (wireMid p ++ [uEOF])).reverse =
        uEOF :: ((wireMid p).reverse ++ [uSOF]) := by simp
    rw [hrev]
    simp [firstIdxOf, List.length_append]
  have htake : (((uSOF :: (wireMid p ++ [uEOF])).take ((wireMid p).length + 1)).drop (0 + 1)) =
      wireMid p := by
    rw [List.take_succ_cons, List.take_left' rfl]
    simp
  unfold uframe_extract_payload
  rw [hfirst, hlast]
  simp only [htake, unescape_wireMid]
  have hclen : (p ++ [crc16 p / 256 % 256, crc16 p % 256]).length = p.length + 2 := by
    simp
  rw [if_pos (by omega)]
  rw [hclen]
  rw [if_neg (by omega), if_neg (by omega)]
  have htk : (p ++ [crc16 p / 256 % 256, crc16 p % 256]).take (p.length + 2 - 2) = p := by
    rw [show p.length + 2 - 2 = p.length from by omega]
    exact List.take_left' rfl
  have hg1 : (p ++ [crc16 p / 256 % 256, crc16 p % 256]).getD (p.length + 2 - 2) 0 =
      crc16 p / 256 % 256 := by
    rw [show p.length + 2 - 2 = p.length from by omega]
    rw [List.getD_append_right _ _ _ _ (Nat.le_refl _)]
    simp
  have hg2 : (p ++ [crc16 p / 256 % 256, crc16 p % 256]).getD (p.length + 2 - 1) 0 =
      crc16 p % 256 := by
    rw [show p.length + 2 - 1 = p.length + 1 from by omega]
    rw [List.getD_append_right _ _ _ _ (by omega)]
    simp
  rw [htk, hg1, hg2]
  have hc := crc16_lt p
  rw [if_pos (by omega)]

/-! ## Lemmas: request prefixes and routing -/

theorem startsWith_take (p : List Char) : ∀ l : List Char, startsWith l p = true →
    l.take p.length = p := by
  induction p with
  | nil => intro l _; simp
  | cons c cs ih =>
    intro l h
    cases l with
    | nil => simp [startsWith] at h
    | cons a as =>
      rw [startsWith, Bool.and_eq_true, beq_iff_eq] at h
      simp [List.length_cons, List.take_succ_cons, h.1, ih as h.2]

theorem startsWith_agree (l p q : List Char) (hp : startsWith l p = true)
    (hq : startsWith l q = true) : p.take q.length = q.take p.length := by
  have h1 : p.take q.length = l.take (min q.length p.length) := by
    conv_lhs => rw [← startsWith_take p l hp]
    rw [List.take_take]
  have h2 : q.take p.length = l.take (min p.length q.length) := by
    conv_lhs => rw [← startsWith_take q l hq]
    rw [List.take_take]
  rw [h1, h2, Nat.min_comm]

theorem startsWith_conflict {l p q : List Char} (hp : startsWith l p = true)
    (hq : startsWith l q = true) (hne : p.take q.length ≠ q.take p.length) : False :=
  hne (startsWith_agree l p q hp hq)

theorem startsWith_ne_nil {l p : List Char} (h : startsWith l p = true) (hp : p ≠ []) :
    l ≠ [] := by
  cases p with
  | nil => exact absurd rfl hp
  | cons c cs =>
    cases l with
    | nil => simp [startsWith] at h
    | cons a as => simp

theorem route_status (req : List Char) (comm : Option uart_comm_func_t) :
    (route req comm).status = 200 ∨ (route req comm).status = 404 := by
  unfold route
  repeat' split
  all_goals simp

theorem route_404_sent (req : List Char) (comm : Option uart_comm_func_t) :
    (route req comm).status = 404 → (route req comm).sent = [] := by
  unfold route
  repeat' split
  all_goals simp

theorem route_matched (req : List Char) (comm : Option uart_comm_func_t)
    (hm : startsWith req rt_options = true ∨ startsWith req rt_get_root = true ∨
      startsWith req rt_get_index = true ∨ startsWith req rt_get_status = true ∨
      startsWith req rt_post_voltage = true ∨ startsWith req rt_post_current = true ∨
      startsWith req rt_post_output = true) :
    (route req comm).status = 200 := by
  unfold route
  split_ifs with h1 h2 h3 h4 h5 h6
  · rfl
  · rfl
  · repeat' split
    all_goals rfl
  · repeat' split
    all_goals rfl
  · repeat' split
    all_goals rfl
  · repeat' split
    all_goals rfl
  · rcases hm with hm | hm | hm | hm | hm | hm | hm
    · exact absurd hm h1
    · exact absurd (by simp [hm] : (startsWith req rt_get_root || startsWith req rt_get_index) = true) h2
    · exact absurd (by simp [hm] : (startsWith req rt_get_root || startsWith req rt_get_index) = true) h2
    · exact absurd hm h3
    · exact absurd hm h4
    · exact absurd hm h5
    · exact absurd hm h6

theorem route_status_resp (req : List Char) (f : uart_comm_func_t) (payload : List Nat)
    (hs : startsWith req rt_get_status = true)
    (hresp : f create_query_frame = some payload) :
    route req (some f) = ⟨200, (parse_query_response payload).1, [create_query_frame]⟩ := by
  have h1 : ¬ startsWith req rt_options = true :=
    fun hx => (startsWith_conflict hx hs (by decide)).elim
  have h2 : ¬ (startsWith req rt_get_root || startsWith req rt_get_index) = true := by
    rw [Bool.or_eq_true]
    rintro (hx | hx) <;> exact startsWith_conflict hx hs (by decide)
  unfold route
  rw [if_neg h1, if_neg h2, if_pos hs]
  simp [hresp]

theorem route_status_timeout (req : List Char) (f : uart_comm_func_t)
    (hs : startsWith req rt_get_status = true)
    (hfail : f create_query_frame = none) :
    route req (some f) = ⟨200, json_comm_timeout, [create_query_frame]⟩ := by
  have h1 : ¬ startsWith req rt_options = true :=
    fun hx => (startsWith_conflict hx hs (by decide)).elim
  have h2 : ¬ (startsWith req rt_get_root || startsWith req rt_get_index) = true := by
    rw [Bool.or_eq_true]
    rintro (hx | hx) <;> exact startsWith_conflict hx hs (by decide)
  unfold route
  rw [if_neg h1, if_neg h2, if_pos hs]
  simp [hfail]

theorem route_post_nobody (req : List Char) (comm : Option uart_comm_func_t)
    (hpost : startsWith req rt_post_voltage = true ∨ startsWith req rt_post_current = true ∨
      startsWith req rt_post_output = true)
    (hnb : find_body req = none) :
    route req comm = ⟨200, json_no_body, []⟩ := by
  have h1 : ¬ startsWith req rt_options = true := by
    rcases hpost with h | h | h <;>
      exact fun hx => (startsWith_conflict hx h (by decide)).elim
  have h2 : ¬ (startsWith req rt_get_root || startsWith req rt_get_index) = true := by
    rw [Bool.or_eq_true]
    rcases hpost with h | h | h <;>
      (rintro (hx | hx) <;> exact startsWith_conflict hx h (by decide))
  have h3 : ¬ startsWith req rt_get_status = true := by
    rcases hpost with h | h | h <;>
      exact fun hx => (startsWith_conflict hx h (by decide)).elim
  unfold route
  rw [if_neg h1, if_neg h2, if_neg h3]
  rcases hpost with h | h | h
  · rw [if_pos h]
    rcases comm with _ | f <;> simp [hnb]
  · have h4 : ¬ startsWith req rt_post_voltage = true :=
      fun hx => (startsWith_conflict hx h (by decide)).elim
    rw [if_neg h4, if_pos h]
    rcases comm with _ | f <;> simp [hnb]
  · have h4 : ¬ startsWith req rt_post_voltage = true :=
      fun hx => (startsWith_conflict hx h (by decide)).elim
    have h5 : ¬ startsWith req rt_post_current = true :=
      fun hx => (startsWith_conflict hx h (by decide)).elim
    rw [if_neg h4, if_neg h5, if_pos h]
    rcases comm with _ | f <;> simp [hnb]

theorem route_post_fail (req : List Char) (f : uart_comm_func_t) (b : List Char)
    (hpost : startsWith req rt_post_voltage = true ∨ startsWith req rt_post_current = true ∨
      startsWith req rt_post_output = true)
    (hb : find_body req = some b)
    (hfail : ∀ w, f w = none) :
    (route req (some f)).status = 200 ∧ (route req (some f)).body = json_success false := by
  have h1 : ¬ startsWith req rt_options = true := by
    rcases hpost with h | h | h <;>
      exact fun hx => (startsWith_conflict hx h (by decide)).elim
  have h2 : ¬ (startsWith req rt_get_root || startsWith req rt_get_index) = true := by
    rw [Bool.or_eq_true]
    rcases hpost with h | h | h <;>
      (rintro (hx | hx) <;> exact startsWith_conflict hx h (by decide))
  have h3 : ¬ startsWith req rt_get_status = true := by
    rcases hpost with h | h | h <;>
      exact fun hx => (startsWith_conflict hx h (by decide)).elim
  unfold route
  rw [if_neg h1, if_neg h2, if_neg h3]
  rcases hpost with h | h | h
  · rw [if_pos h]
    simp [hb, hfail]
  · have h4 : ¬ startsWith req rt_post_voltage = true :=
      fun hx => (startsWith_conflict hx h (by decide)).elim
    rw [if_neg h4, if_pos h]
    simp [hb, hfail]
  · have h4 : ¬ startsWith req rt_post_voltage = true :=
      fun hx => (startsWith_conflict hx h (by decide)).elim
    have h5 : ¬ startsWith req rt_post_current = true :=
      fun hx => (startsWith_conflict hx h (by decide)).elim
    rw [if_neg h4, if_neg h5, if_pos h]
    simp [hb, hfail]

theorem route_post_output (req : List Char) (f : uart_comm_func_t) (b : List Char)
    (ho : startsWith req rt_post_output = true)
    (hb : find_body req = some b) :
    route req (some f) = ⟨200,
      json_success (match f (create_enable_output_frame
          (if b.headD (Char.ofNat 0) = '1' then 1 else 0)) with
        | some payload => parse_simple_response payload
        | none => false),
      [create_enable_output_frame (if b.headD (Char.ofNat 0) = '1' then 1 else 0)]⟩ := by
  have h1 : ¬ startsWith req rt_options = true :=
    fun hx => (startsWith_conflict hx ho (by decide)).elim
  have h2 : ¬ (startsWith req rt_get_root || startsWith req rt_get_index) = true := by
    rw [Bool.or_eq_true]
    rintro (hx | hx) <;> exact startsWith_conflict hx ho (by decide)
  have h3 : ¬ startsWith req rt_get_status = true :=
    fun hx => (startsWith_conflict hx ho (by decide)).elim
  have h4 : ¬ startsWith req rt_post_voltage = true :=
    fun hx => (startsWith_conflict hx ho (by decide)).elim
  have h5 : ¬ startsWith req rt_post_current = true :=
    fun hx => (startsWith_conflict hx ho (by decide)).elim
  unfold route
  rw [if_neg h1, if_neg h2, if_neg h3, if_neg h4, if_neg h5, if_pos ho]
  simp [hb]

theorem handle_request_some (req : List Char) (comm : Option uart_comm_func_t)
    (hne : req ≠ []) : handle_request req comm = some (route req comm) := by
  cases req with
  | nil => exact absurd rfl hne
  | cons a as => rfl

theorem extract_enable_output (e : Nat) (he : e < 256) :
    uframe_extract_payload (create_enable_output_frame e) = .ok [cmd_enable_output, e] := by
  have heq : create_enable_output_frame e = buildWire [cmd_enable_output, e] := rfl
  rw [heq]
  apply extract_buildWire
  · intro x hx
    simp only [List.mem_cons, List.not_mem_nil, or_false] at hx
    rcases hx with rfl | rfl
    · decide
    · exact he
  · simp

/-! ## The claims -/

/-- C1: for every payload of at most 124 bytes (each byte a `uint8_t`,
i.e. < 256), building a frame from it (`set_frame_header`, `pack8` for
every byte, `end_frame`) and then running `uframe_extract_payload` on the
resulting wire bytes succeeds and returns exactly the payload. -/
theorem c1_frame_roundtrip (p : List Nat) (hb : ∀ b ∈ p, b < 256)
    (hlen : p.length ≤ 124) :
    uframe_extract_payload (buildWire p) = .ok p :=
  extract_buildWire p hb hlen

theorem c1_frame_roundtrip_witness :
    (∀ b ∈ ([1, 2, 3] : List Nat), b < 256) ∧ ([1, 2, 3] : List Nat).length ≤ 124 ∧
      uframe_extract_payload (buildWire [1, 2, 3]) = .ok [1, 2, 3] :=
  ⟨by decide, by decide, c1_frame_roundtrip [1, 2, 3] (by decide) (by decide)⟩

/-- C2: the wire form of any built frame starts with SOF and ends with EOF,
no byte strictly between them is 0x7E or 0x7F, each of the three special
bytes is escaped as `DLE, byte XOR 0x20`, and a payload containing a
special byte still round-trips through `uframe_extract_payload`. -/
theorem c2_escaping (p : List Nat) (hb : ∀ b ∈ p, b < 256) (hlen : p.length ≤ 124) :
    (buildWire p).head? = some uSOF ∧
    (buildWire p).getLast? = some uEOF ∧
    (∀ b ∈ ((buildWire p).drop 1).dropLast, b ≠ uSOF ∧ b ≠ uEOF) ∧
    (∀ d, (d = uSOF ∨ d = uEOF ∨ d = uDLE) → escapeByte d = [uDLE, d ^^^ uXOR]) ∧
    ((∃ b ∈ p, b = uSOF ∨ b = uEOF ∨ b = uDLE) →
      uframe_extract_payload (buildWire p) = .ok p) := by
  refine ⟨?_, ?_, ?_, ?_, fun _ => extract_buildWire p hb hlen⟩
  · rw [buildWire_eq p hb]
    rfl
  · rw [buildWire_eq p hb,
      show uSOF :: (wireMid p ++ [uEOF]) = (uSOF :: wireMid p) ++ [uEOF] from by simp,
      List.getLast?_concat]
  · intro b hbm
    rw [buildWire_eq p hb] at hbm
    simp only [List.drop_one, List.tail_cons, List.dropLast_concat] at hbm
    exact wireMid_no_marker p b hbm
  · rintro d (rfl | rfl | rfl) <;> decide

theorem c2_escaping_witness :
    (∀ b ∈ ([0x7e, 0x7f, 0x7d] : List Nat), b < 256) ∧
    ((buildWire [0x7e, 0x7f, 0x7d]).head? = some uSOF ∧
     (buildWire [0x7e, 0x7f, 0x7d]).getLast? = some uEOF ∧
     (∀ b ∈ ((buildWire [0x7e, 0x7f, 0x7d]).drop 1).dropLast, b ≠ uSOF ∧ b ≠ uEOF) ∧
     (∀ d, (d = uSOF ∨ d = uEOF ∨ d = uDLE) → escapeByte d = [uDLE, d ^^^ uXOR]) ∧
     ((∃ b ∈ ([0x7e, 0x7f, 0x7d] : List Nat), b = uSOF ∨ b = uEOF ∨ b = uDLE) →
       uframe_extract_payload (buildWire [0x7e, 0x7f, 0x7d]) = .ok [0x7e, 0x7f, 0x7d])) :=
  ⟨by decide, c2_escaping [0x7e, 0x7f, 0x7d] (by decide) (by decide)⟩

/-- C4: `crc16` of an empty buffer is 0, and for every buffer `crc16`
equals the left fold of `crc16_add` over its bytes starting from 0. -/
theorem c4_crc_fold : crc16 [] = 0 ∧ ∀ data : List Nat, crc16 data = data.foldl crc16_add 0 :=
  ⟨rfl, crc16_eq_foldl⟩

/-- C5: in the upgrade handshake the handoff words are written
(`bootcom_put`) strictly before the reset event, and a successful
`bootcom_get` clears the record, so a later reset followed by another read
finds no valid handoff data. -/
theorem c5_handoff (chunk_size : Nat) (s0 : bootcom_state) :
    (upgrade_start_events chunk_size).getD 0 .get_handoff =
      .put_handoff bootcom_cmd_upgrade chunk_size ∧
    (upgrade_start_events chunk_size).getD 1 .get_handoff = .device_reset ∧
    (run_events s0 (upgrade_start_events chunk_size ++
      [.get_handoff, .device_reset, .get_handoff])).2 =
      [some (bootcom_cmd_upgrade, chunk_size), none] :=
  ⟨rfl, rfl, rfl⟩

/-- C9: the OcpEvent frame carries its 16-bit current low byte first —
its extracted payload is `[cmd_ocp_event, low, high]` — which is the
reverse of the big-endian byte order `pack16` emits for every other
16-bit field. -/
theorem c9_ocp_byte_order (i : Nat) (h : i < 65536) :
    uframe_extract_payload (protocol_create_ocp i).buffer =
      .ok [cmd_ocp_event, i % 256, i / 256] ∧
    (∀ f : frame_t, (pack16 f i).buffer = f.buffer ++ escapeList (u16_be_bytes i)) ∧
    [i % 256, i / 256] = (u16_be_bytes i).reverse := by
  have hdiv : i / 256 % 256 = i / 256 := by omega
  refine ⟨?_, ?_, ?_⟩
  · have heq : (protocol_create_ocp i).buffer =
        buildWire [cmd_ocp_event, i % 256, i / 256 % 256] := rfl
    rw [heq, hdiv]
    apply extract_buildWire
    · intro x hx
      simp only [List.mem_cons, List.not_mem_nil, or_false] at hx
      rcases hx with rfl | rfl | rfl
      · decide
      · omega
      · omega
    · simp
  · intro f
    have h1 : i / 256 % 256 % 256 = i / 256 % 256 := by omega
    have h2 : i % 256 % 256 = i % 256 := by omega
    simp [pack16, pack8, u16_be_bytes, escapeList, h1, h2, List.append_assoc]
  · simp [u16_be_bytes, hdiv]

theorem c9_ocp_byte_order_witness :
    (1200 : Nat) < 65536 ∧
    (uframe_extract_payload (protocol_create_ocp 1200).buffer =
      .ok [cmd_ocp_event, 1200 % 256, 1200 / 256] ∧
    (∀ f : frame_t, (pack16 f 1200).buffer = f.buffer ++ escapeList (u16_be_bytes 1200)) ∧
    [1200 % 256, 1200 / 256] = (u16_be_bytes 1200).reverse) :=
  ⟨by decide, c9_ocp_byte_order 1200 (by decide)⟩

/-- C6: every response the gateway writes has status 200 or 404 (never
5xx); every matched route answers 200; a 404 is only written for an
unmatched method/path and performs no device transaction; and a transport
failure surfaces as the 200 JSON bodies `communication timeout`
(GET /api/status) and `success:false` (POST routes with a body). -/
theorem c6_gateway_errors (req : List Char) (comm : Option uart_comm_func_t)
    (o : http_out) (h : handle_request req comm = some o) :
    (o.status = 200 ∨ o.status = 404) ∧
    (o.status = 404 → o.sent = []) ∧
    ((startsWith req rt_options = true ∨ startsWith req rt_get_root = true ∨
      startsWith req rt_get_index = true ∨ startsWith req rt_get_status = true ∨
      startsWith req rt_post_voltage = true ∨ startsWith req rt_post_current = true ∨
      startsWith req rt_post_output = true) → o.status = 200) ∧
    (∀ f, comm = some f → (∀ w, f w = none) →
      (startsWith req rt_get_status = true →
        o.status = 200 ∧ o.body = json_comm_timeout) ∧
      ((startsWith req rt_post_voltage = true ∨ startsWith req rt_post_current = true ∨
        startsWith req rt_post_output = true) → ∀ b, find_body req = some b →
        o.status = 200 ∧ o.body = json_success false)) := by
  have ho : o = route req comm := by
    rw [handle_request] at h
    split at h
    · exact Option.noConfusion h
    · injection h with h
      exact h.symm
  subst ho
  refine ⟨route_status req comm, route_404_sent req comm, route_matched req comm, ?_⟩
  rintro f rfl hfail
  constructor
  · intro hs
    rw [route_status_timeout req f hs (hfail _)]
    exact ⟨rfl, rfl⟩
  · intro hpost b hb
    exact route_post_fail req f b hpost hb hfail

/-- Concrete request for the C6 witness. -/
def c6w_req : List Char := "GET /unknown".toList

/-- Concrete gateway outcome for the C6 witness. -/
def c6w_out : http_out := ⟨404, "Not Found", []⟩

theorem c6_gateway_errors_witness :
    handle_request c6w_req none = some c6w_out ∧
    ((c6w_out.status = 200 ∨ c6w_out.status = 404) ∧
     (c6w_out.status = 404 → c6w_out.sent = []) ∧
     ((startsWith c6w_req rt_options = true ∨ startsWith c6w_req rt_get_root = true ∨
       startsWith c6w_req rt_get_index = true ∨ startsWith c6w_req rt_get_status = true ∨
       startsWith c6w_req rt_post_voltage = true ∨ startsWith c6w_req rt_post_current = true ∨
       startsWith c6w_req rt_post_output = true) → c6w_out.status = 200) ∧
     (∀ f, (none : Option uart_comm_func_t) = some f → (∀ w, f w = none) →
       (startsWith c6w_req rt_get_status = true →
         c6w_out.status = 200 ∧ c6w_out.body = json_comm_timeout) ∧
       ((startsWith c6w_req rt_post_voltage = true ∨
         startsWith c6w_req rt_post_current = true ∨
         startsWith c6w_req rt_post_output = true) → ∀ b, find_body c6w_req = some b →
         c6w_out.status = 200 ∧ c6w_out.body = json_success false))) :=
  ⟨by decide, c6_gateway_errors c6w_req none c6w_out (by decide)⟩

/-- C7: a POST to /api/voltage, /api/current or /api/output whose request
text has no header/body separator is answered 200 with the
`success:false, no body` JSON and no frame is handed to the transport. -/
theorem c7_post_no_body (req : List Char) (comm : Option uart_comm_func_t)
    (hpost : startsWith req rt_post_voltage = true ∨ startsWith req rt_post_current = true ∨
      startsWith req rt_post_output = true)
    (hnb : find_body req = none) :
    handle_request req comm = some ⟨200, json_no_body, []⟩ := by
  have hne : req ≠ [] := by
    rcases hpost with h | h | h <;> exact startsWith_ne_nil h (by decide)
  rw [handle_request_some req comm hne, route_post_nobody req comm hpost hnb]

theorem c7_post_no_body_witness :
    find_body ("POST /api/voltage HTTP/1.1".toList) = none ∧
    handle_request ("POST /api/voltage HTTP/1.1".toList) none =
      some ⟨200, json_no_body, []⟩ :=
  ⟨by decide, c7_post_no_body ("POST /api/voltage HTTP/1.1".toList) none
    (Or.inl (by decide)) (by decide)⟩

/-- C8: a POST to /api/output with a body sends exactly one EnableOutput
frame whose boolean payload byte is 1 precisely when the body's first
character is '1' (0 otherwise), and answers with the `success` JSON
reflecting the transport's response. -/
theorem c8_post_output (req : List Char) (f : uart_comm_func_t) (b : List Char)
    (ho : startsWith req rt_post_output = true)
    (hb : find_body req = some b) (hbne : b ≠ []) :
    handle_request req (some f) = some ⟨200,
      json_success (match f (create_enable_output_frame
          (if b.headD (Char.ofNat 0) = '1' then 1 else 0)) with
        | some payload => parse_simple_response payload
        | none => false),
      [create_enable_output_frame (if b.headD (Char.ofNat 0) = '1' then 1 else 0)]⟩ ∧
    uframe_extract_payload (create_enable_output_frame
        (if b.headD (Char.ofNat 0) = '1' then 1 else 0)) =
      .ok [cmd_enable_output, if b.headD (Char.ofNat 0) = '1' then 1 else 0] ∧
    ((if b.headD (Char.ofNat 0) = '1' then (1 : Nat) else 0) = 1 ↔
      b.headD (Char.ofNat 0) = '1') := by
  have hne : req ≠ [] := startsWith_ne_nil ho (by decide)
  refine ⟨?_, ?_, ?_⟩
  · rw [handle_request_some req (some f) hne, route_post_output req f b ho hb]
  · apply extract_enable_output
    split <;> norm_num
  · split
    case isTrue hh => exact iff_of_true rfl hh
    case isFalse hh => exact iff_of_false (by norm_num) hh

theorem c8_post_output_witness :
    find_body ("POST /api/output HTTP/1.1\r\n\r\n1".toList) = some ("1".toList) ∧
    (handle_request ("POST /api/output HTTP/1.1\r\n\r\n1".toList)
        (some (fun _ => some [0x8c, 1])) = some ⟨200,
      json_success (match (fun _ => some ([0x8c, 1] : List Nat)) (create_enable_output_frame
          (if ("1".toList).headD (Char.ofNat 0) = '1' then 1 else 0)) with
        | some payload => parse_simple_response payload
        | none => false),
      [create_enable_output_frame (if ("1".toList).headD (Char.ofNat 0) = '1' then 1 else 0)]⟩ ∧
    uframe_extract_payload (create_enable_output_frame
        (if ("1".toList).headD (Char.ofNat 0) = '1' then 1 else 0)) =
      .ok [cmd_enable_output, if ("1".toList).headD (Char.ofNat 0) = '1' then 1 else 0] ∧
    ((if ("1".toList).headD (Char.ofNat 0) = '1' then (1 : Nat) else 0) = 1 ↔
      ("1".toList).headD (Char.ofNat 0) = '1')) :=
  ⟨by decide, c8_post_output ("POST /api/output HTTP/1.1\r\n\r\n1".toList)
    (fun _ => some [0x8c, 1]) ("1".toList) (by decide) (by decide) (by decide)⟩

/-- C10: when the transport round trip of GET /api/status succeeds but the
returned payload's first byte is not `cmd_response | cmd_query` or its
status byte is 0, the gateway answers 200 with the
`error: invalid response` JSON body. -/
theorem c10_invalid_response (req : List Char) (f : uart_comm_func_t) (payload : List Nat)
    (hs : startsWith req rt_get_status = true)
    (hresp : f create_query_frame = some payload)
    (hlen : 2 ≤ payload.length)
    (hbad : payload.getD 0 0 ≠ (cmd_response ||| cmd_query) ∨ payload.getD 1 0 = 0) :
    handle_request req (some f) = some ⟨200, json_invalid_response, [create_query_frame]⟩ := by
  have hne : req ≠ [] := startsWith_ne_nil hs (by decide)
  rw [handle_request_some req (some f) hne, route_status_resp req f payload hs hresp]
  have hp : (parse_query_response payload).1 = json_invalid_response := by
    unfold parse_query_response
    simp only [unpack8, start_frame_unpacking, uframe_from_extracted_payload]
    rw [if_pos hbad]
  rw [hp]

theorem c10_invalid_response_witness :
    (2 ≤ ([1, 1] : List Nat).length ∧
      (([1, 1] : List Nat).getD 0 0 ≠ (cmd_response ||| cmd_query) ∨
        ([1, 1] : List Nat).getD 1 0 = 0)) ∧
    handle_request ("GET /api/status".toList) (some (fun _ => some [1, 1])) =
      some ⟨200, json_invalid_response, [create_query_frame]⟩ :=
  ⟨⟨by decide, by decide⟩,
    c10_invalid_response ("GET /api/status".toList) (fun _ => some [1, 1]) [1, 1]
      (by decide) rfl (by decide) (by decide)⟩

/-- The cmd_query response stipulated by C3, laid out per protocol.h:
`[cmd_response | cmd_query] [1] [v_in=24000] [v_out_setting=5000]
[v_out=5000] [i_out=1200] [i_limit=3000] [enabled=1]`, all 16-bit fields
big-endian. -/
def c3_device_response : List Nat :=
  [0x84, 1, 93, 192, 19, 136, 19, 136, 4, 176, 11, 184, 1]

/-- C3: evaluating the gateway on GET /api/status with the stipulated
device response. webserver.c's `parse_query_response` expects the
temperature-extended payload layout, not the one protocol.h documents, so
it reports `i_out` as 5.000 (the device's `v_out` field) instead of the
1.200 the claim states. -/
theorem c3_status_misparse :
    handle_request ("GET /api/status HTTP/1.1\r\n\r\n".toList)
      (some (fun _ => some c3_device_response)) =
      some ⟨200,
        "\x7b\"v_in\":24.00,\"v_out\":5.00,\"i_out\":5.000,\"output_enabled\":true\x7d",
        [create_query_frame]⟩ ∧
    "\x7b\"v_in\":24.00,\"v_out\":5.00,\"i_out\":5.000,\"output_enabled\":true\x7d" ≠
      "\x7b\"v_in\":24.00,\"v_out\":5.00,\"i_out\":1.200,\"output_enabled\":true\x7d" :=
  ⟨by decide, by decide⟩
